import Mathlib

/-!
Verification of the flake-tracker collection and reporting pipeline found in
`experiment/flake-tracker/FlakeTracker.go`.

The Go program fetches a TestGrid tab-group summary, partitions the jobs into
flaking / failed / passing buckets by their `overall_status`, enriches the
flaking and failed buckets with per-job test tables, tags each test with a
sig label derived from its name, and prints one CSV line per test (one line
per passing job).

Shallow embedding conventions:
* Go maps (`map[string]jobStatus`) are modelled as association lists
  `List (String × jobStatus)` with one entry per key; iteration order of the
  model is the list order (Go map order is unspecified).
* HTTP+JSON effects are modelled by explicit parameters: the summary fetch is
  an `Except FetchError (List (String × summaryJob))` value and the per-job
  table fetch is a function from the request URL to
  `Except FetchError testGridJobResult`.  `FetchError.transport` stands for an
  `http.Get` error and `FetchError.parse` for a `json.Unmarshal` error.
* `time.Time` values appear only formatted into report rows, so `CollectedAt`
  is modelled as the already-formatted string.
* A Go runtime panic (nil-pointer dereference while emitting rows) is
  modelled by a `false` "completed" flag paired with the rows printed before
  the panic.
-/

/-- Errors raised by a fetch: a transport error from `http.Get`, or a parse
error from `json.Unmarshal` on the response body. -/
inductive FetchError where
  | transport : String → FetchError
  | parse : String → FetchError
deriving DecidableEq, Repr

/-- One test entry of a TestGrid job table (`testGridJobResult.Tests` element
in `FlakeTracker.go`).  The JSON-only fields that the program never reads
(`alert`, `linked_bugs`, `user_property`) are omitted; `sig` is the
calculated field appended in the Go struct. -/
structure testEntry where
  Name : String
  OriginalName : String
  Messages : List String
  ShortTexts : List String
  Statuses : List (Int × Int)
  Target : String
  sig : String
deriving DecidableEq, Repr

/-- Per-job test table (`testGridJobResult` in `FlakeTracker.go`); the many
commented-out / unused JSON fields of the Go struct are omitted. -/
structure testGridJobResult where
  TestGroupName : String
  Tests : List testEntry
deriving DecidableEq, Repr

/-- Job status record (`jobStatus` in `FlakeTracker.go`).  `url` and
`jobTestResults` are the unexported fields filled in by enrichment; the Go
`*testGridJobResult` nil pointer is `none`. -/
structure jobStatus where
  OverallStatus : String
  Alert : String
  LastRun : Int
  LastUpdate : Int
  LatestGreenRun : String
  LatestStatusIcon : String
  LatestStatusDescription : String
  url : String
  jobTestResults : Option testGridJobResult
deriving DecidableEq, Repr

/-- The JSON-exported fields of `jobStatus`, i.e. what `json.Unmarshal` can
populate from the summary endpoint.  The unexported fields `url` and
`jobTestResults` are never set by unmarshalling and stay at their zero
values. -/
structure summaryJob where
  OverallStatus : String
  Alert : String
  LastRun : Int
  LastUpdate : Int
  LatestGreenRun : String
  LatestStatusIcon : String
  LatestStatusDescription : String
deriving DecidableEq, Repr

/-- The `jobStatus` value produced by unmarshalling a summary entry: exported
fields from the JSON, unexported fields at their Go zero values (`""` and
nil). -/
def summaryJob.toJobStatus (s : summaryJob) : jobStatus :=
  { OverallStatus := s.OverallStatus
    Alert := s.Alert
    LastRun := s.LastRun
    LastUpdate := s.LastUpdate
    LatestGreenRun := s.LatestGreenRun
    LatestStatusIcon := s.LatestStatusIcon
    LatestStatusDescription := s.LatestStatusDescription
    url := ""
    jobTestResults := none }

/-- Status of a tab group (`TabGroupStatus` in `FlakeTracker.go`).  The
`JobIssues` field (issue-board integration) is out of scope and omitted;
`CollectedAt` is the formatted collection timestamp. -/
structure TabGroupStatus where
  Name : String
  CollectedAt : String
  Count : Nat
  TabGroupSummaryUrl : String
  FlakingJobs : List (String × jobStatus)
  PassingJobs : List (String × jobStatus)
  FailedJobs : List (String × jobStatus)
deriving DecidableEq, Repr

/-! ## Sig tagging

`addSigToTestResults` applies the Go regexp `\[sig-.+?\] ` with `FindString`:
the leftmost match, and at the leftmost start the shortest one (lazy `.+?`,
where `.` does not match a newline).  `sigTail` matches `.+?\] ` lazily,
`sigMatchHere` anchors the literal `[sig-` prefix at the current position,
and `sigFind` scans start positions left to right. -/

/-- Does the list start with the closing `"] "` of the sig marker? -/
def startsClose : List Char → Bool
  | c1 :: c2 :: _ => c1 = ']' && c2 = ' '
  | _ => false

/-- Lazy match of `.+?\] ` : consume at least one non-newline character, then
the earliest following `"] "`.  Returns the matched characters. -/
def sigTail : List Char → Option (List Char)
  | [] => none
  | c :: rest =>
    if c = '\n' then none
    else if startsClose rest then some [c, ']', ' ']
    else (sigTail rest).map (fun t => c :: t)

/-- Match `\[sig-.+?\] ` anchored at the head of the list: the literal
`[sig-` followed by the lazy tail. -/
def sigMatchHere : List Char → Option (List Char)
  | a :: b :: c :: d :: e :: rest =>
    if a = '[' ∧ b = 's' ∧ c = 'i' ∧ d = 'g' ∧ e = '-' then
      (sigTail rest).map (fun t => a :: b :: c :: d :: e :: t)
    else none
  | _ => none

/-- Leftmost match of `\[sig-.+?\] ` : try each start position from the left. -/
def sigFind : List Char → Option (List Char)
  | [] => none
  | c :: rest =>
    match sigMatchHere (c :: rest) with
    | some m => some m
    | none => sigFind rest

/-- Model of `regexp.FindString` for the sig pattern: the leftmost match, or `""` when
there is none. -/
def sigFindString (s : String) : String :=
  match sigFind s.data with
  | some m => String.mk m
  | none => ""

/-- The label computed for one test name in `addSigToTestResults`: the
matched marker text when the pattern occurs, otherwise the sentinel
`"job-owner"`. -/
def tagSig (name : String) : String :=
  let sig := sigFindString name
  if sig ≠ "" then sig else "job-owner"

/-- Function `addSigToTestResults` from `FlakeTracker.go`: set the `sig` field of
every test from its `Name`. -/
def addSigToTestResults (r : testGridJobResult) : testGridJobResult :=
  { r with Tests := r.Tests.map (fun t => { t with sig := tagSig t.Name }) }

/-! ## URL construction

`TG_TABGROUP_SUMMARY_FMT` and `TG_JOB_TEST_TABLE_FMT` with `fmt.Sprintf`,
and Go's `url.QueryEscape` (UTF-8 bytes; unreserved bytes kept, space to
`+`, everything else percent-encoded with uppercase hex). -/

/-- UTF-8 encoding of a Unicode code point, as a list of byte values. -/
def utf8Bytes (n : Nat) : List Nat :=
  if n < 0x80 then [n]
  else if n < 0x800 then
    [0xC0 + n / 64, 0x80 + n % 64]
  else if n < 0x10000 then
    [0xE0 + n / 4096, 0x80 + n / 64 % 64, 0x80 + n % 64]
  else
    [0xF0 + n / 262144, 0x80 + n / 4096 % 64, 0x80 + n / 64 % 64, 0x80 + n % 64]

/-- Uppercase hexadecimal digit for a value below 16. -/
def hexDigit (n : Nat) : Char :=
  if n < 10 then Char.ofNat ('0'.toNat + n) else Char.ofNat ('A'.toNat + n - 10)

/-- Is this byte left unescaped by `url.QueryEscape`?  Alphanumerics and
`-`, `_`, `.`, `~`. -/
def queryUnescapedByte (b : Nat) : Bool :=
  ('a'.toNat ≤ b && b ≤ 'z'.toNat) || ('A'.toNat ≤ b && b ≤ 'Z'.toNat) ||
  ('0'.toNat ≤ b && b ≤ '9'.toNat) ||
  b = '-'.toNat || b = '_'.toNat || b = '.'.toNat || b = '~'.toNat

/-- Escape one byte of the query component. -/
def escapeQueryByte (b : Nat) : List Char :=
  if queryUnescapedByte b then [Char.ofNat b]
  else if b = ' '.toNat then ['+']
  else ['%', hexDigit (b / 16), hexDigit (b % 16)]

/-- Go `url.QueryEscape`: escape every UTF-8 byte of the string. -/
def queryEscape (s : String) : String :=
  String.mk (s.data.flatMap (fun c => (utf8Bytes c.toNat).flatMap escapeQueryByte))

/-- Constant `TG_TABGROUP_SUMMARY_FMT` instantiated with the group name. -/
def tabGroupSummaryUrl (group : String) : String :=
  "https://testgrid.k8s.io/" ++ group ++ "/summary"

/-- Constant `TG_JOB_TEST_TABLE_FMT` instantiated as in `CollectFlakyTests` /
`CollectFailedTests`: the group name is both the dashboard and the path
segment, the job name is the query-escaped tab. -/
def jobTestTableUrl (group jobName : String) : String :=
  "https://testgrid.k8s.io/" ++ group ++ "/table?tab=" ++ queryEscape jobName ++
    "&width=5&exclude-non-failed-tests=&sort-by-flakiness=&dashboard=" ++ group

/-! ## Status collection (`CollectStatus`) -/

/-- Method `CollectStatus` from `FlakeTracker.go`.  `summary` is the result of
fetching and unmarshalling `t.TabGroupSummaryUrl` (the three early-return
error paths — `http.Get`, `ioutil.ReadAll`, `json.Unmarshal` — all leave `t`
unchanged and return the error).  On success the three bucket maps are
rebuilt from scratch by exact string comparison on `overall_status`, and
`Count` is set to the total number of jobs unmarshalled. -/
def CollectStatus (t : TabGroupStatus)
    (summary : Except FetchError (List (String × summaryJob))) :
    TabGroupStatus × Except FetchError Unit :=
  match summary with
  | Except.error e => (t, Except.error e)
  | Except.ok sjobs =>
    let jobs : List (String × jobStatus) := sjobs.map (fun p => (p.1, p.2.toJobStatus))
    ({ t with
        FlakingJobs := jobs.filter (fun p => p.2.OverallStatus == "FLAKY")
        FailedJobs := jobs.filter (fun p => p.2.OverallStatus == "FAILING")
        PassingJobs := jobs.filter (fun p => p.2.OverallStatus == "PASSING")
        Count := jobs.length },
      Except.ok ())

/-! ## Per-job enrichment (`CollectFlakyTests`, `CollectFailedTests`)

Both Go functions run the same loop over their bucket map: build the table
URL, fetch it, on transport or parse failure return the error at once,
otherwise read the job's map slot, attach the sig-tagged results and the URL,
and write the slot back. -/

/-- The read-modify-write of one map slot: `tmp := m[jobName]`,
`tmp.jobTestResults, tmp.url := ...`, `m[jobName] = tmp`. -/
def attachResults (m : List (String × jobStatus)) (jobName : String)
    (r : testGridJobResult) (u : String) : List (String × jobStatus) :=
  m.map (fun p =>
    if p.1 == jobName then (p.1, { p.2 with jobTestResults := some r, url := u })
    else p)

/-- The shared enrichment loop body of `CollectFlakyTests` and
`CollectFailedTests`: iterate the bucket's keys, fail fast on the first fetch
that errors. -/
def collectTestsLoop (groupName : String)
    (fetch : String → Except FetchError testGridJobResult)
    (keys : List String) (m : List (String × jobStatus)) :
    List (String × jobStatus) × Except FetchError Unit :=
  match keys with
  | [] => (m, Except.ok ())
  | jobName :: rest =>
    match fetch (jobTestTableUrl groupName jobName) with
    | Except.error e => (m, Except.error e)
    | Except.ok results =>
      collectTestsLoop groupName fetch rest
        (attachResults m jobName (addSigToTestResults results)
          (jobTestTableUrl groupName jobName))

/-- Method `CollectFlakyTests` from `FlakeTracker.go`: enrich every job of the
flaking bucket with its sig-tagged test table. -/
def CollectFlakyTests (t : TabGroupStatus)
    (fetch : String → Except FetchError testGridJobResult) :
    TabGroupStatus × Except FetchError Unit :=
  ({ t with
      FlakingJobs :=
        (collectTestsLoop t.Name fetch (t.FlakingJobs.map Prod.fst) t.FlakingJobs).1 },
    (collectTestsLoop t.Name fetch (t.FlakingJobs.map Prod.fst) t.FlakingJobs).2)

/-- Method `CollectFailedTests` from `FlakeTracker.go`: the same loop over the
failed bucket. -/
def CollectFailedTests (t : TabGroupStatus)
    (fetch : String → Except FetchError testGridJobResult) :
    TabGroupStatus × Except FetchError Unit :=
  ({ t with
      FailedJobs :=
        (collectTestsLoop t.Name fetch (t.FailedJobs.map Prod.fst) t.FailedJobs).1 },
    (collectTestsLoop t.Name fetch (t.FailedJobs.map Prod.fst) t.FailedJobs).2)

/-! ## Report emission (`runReport`) -/

/-- One printed CSV line of the report
(`fmt.Printf("%s,%s,%s,\"%s\",\"%s\",%s\n", ...)`). -/
def formatRow (collectedAt status jobName sig testName u : String) : String :=
  collectedAt ++ "," ++ status ++ "," ++ jobName ++ ",\"" ++ sig ++ "\",\"" ++
    testName ++ "\"," ++ u ++ "\n"

/-- The rows printed for one enriched bucket (flaking or failed), paired with
a completion flag.  A job whose `jobTestResults` pointer is nil makes the Go
loop dereference nil and panic: the flag is `false` and no later row is
printed. -/
def emitEnriched (collectedAt : String) :
    List (String × jobStatus) → List String × Bool
  | [] => ([], true)
  | (jobName, js) :: rest =>
    match js.jobTestResults with
    | none => ([], false)
    | some r =>
      ((r.Tests.map (fun te =>
          formatRow collectedAt js.OverallStatus jobName te.sig te.Name js.url)) ++
        (emitEnriched collectedAt rest).1,
       (emitEnriched collectedAt rest).2)

/-- The rows printed for the passing bucket: one row per job, with empty sig
and test-name fields. -/
def emitPassing (collectedAt : String) (bucket : List (String × jobStatus)) :
    List String :=
  bucket.map (fun p => formatRow collectedAt p.2.OverallStatus p.1 "" "" p.2.url)

/-- The three print loops at the end of `runReport`: flaking rows, then
failed rows, then passing rows.  A nil-pointer panic in an earlier loop stops
the run with the rows printed so far. -/
def emitReport (t : TabGroupStatus) : List String × Bool :=
  if (emitEnriched t.CollectedAt t.FlakingJobs).2 = false then
    emitEnriched t.CollectedAt t.FlakingJobs
  else if (emitEnriched t.CollectedAt t.FailedJobs).2 = false then
    ((emitEnriched t.CollectedAt t.FlakingJobs).1 ++
      (emitEnriched t.CollectedAt t.FailedJobs).1, false)
  else
    ((emitEnriched t.CollectedAt t.FlakingJobs).1 ++
      (emitEnriched t.CollectedAt t.FailedJobs).1 ++
      emitPassing t.CollectedAt t.PassingJobs, true)

/-- Function `runReport` from `FlakeTracker.go`: run the three collection passes —
discarding all three returned errors — then print the report.  Returns the
final tab-group state, the printed rows, and whether the run completed
without a panic. -/
def runReport (t : TabGroupStatus)
    (summary : Except FetchError (List (String × summaryJob)))
    (fetch : String → Except FetchError testGridJobResult) :
    TabGroupStatus × (List String × Bool) :=
  let t1 := (CollectStatus t summary).1
  let t2 := (CollectFlakyTests t1 fetch).1
  let t3 := (CollectFailedTests t2 fetch).1
  (t3, emitReport t3)

/-- A fresh `TabGroupStatus` as built in `main`: name, collection time and
summary URL set, every other field at its zero value (nil maps are empty
lists). -/
def initialTabGroup (name now : String) : TabGroupStatus :=
  { Name := name
    CollectedAt := now
    Count := 0
    TabGroupSummaryUrl := tabGroupSummaryUrl name
    FlakingJobs := []
    PassingJobs := []
    FailedJobs := [] }

/-- The process exit status of `main`: `runReport` on the blocking group,
then on the informing group.  Go exits with status 2 on an uncaught runtime
panic and with status 0 otherwise — `main` never inspects any error. -/
def mainExitStatus (now : String)
    (summaryBlocking summaryInforming : Except FetchError (List (String × summaryJob)))
    (fetchBlocking fetchInforming : String → Except FetchError testGridJobResult) :
    Nat :=
  if (runReport (initialTabGroup "sig-release-master-blocking" now)
        summaryBlocking fetchBlocking).2.2 = false then 2
  else if (runReport (initialTabGroup "sig-release-master-informing" now)
        summaryInforming fetchInforming).2.2 = false then 2
  else 0

/-! ## Derived notions used to state the claims -/

/-- Equality of the summary-derived fields of two job records — everything
except the enrichment fields `url` and `jobTestResults`. -/
def coreUnchanged (a b : jobStatus) : Prop :=
  a.OverallStatus = b.OverallStatus ∧ a.Alert = b.Alert ∧ a.LastRun = b.LastRun
  ∧ a.LastUpdate = b.LastUpdate ∧ a.LatestGreenRun = b.LatestGreenRun
  ∧ a.LatestStatusIcon = b.LatestStatusIcon
  ∧ a.LatestStatusDescription = b.LatestStatusDescription

/-- Entry-wise relation between a bucket before and after enrichment: same
job name, same summary-derived fields. -/
def entryFrame (p q : String × jobStatus) : Prop :=
  p.1 = q.1 ∧ coreUnchanged p.2 q.2

/-- Number of attached test results of a job record (`0` when the record was
never enriched). -/
def testCount (js : jobStatus) : Nat :=
  match js.jobTestResults with
  | some r => r.Tests.length
  | none => 0

/-- Sum of attached test-list lengths over a bucket. -/
def bucketTestSum (l : List (String × jobStatus)) : Nat :=
  (l.map (fun p => testCount p.2)).sum

/-! ## Concrete fixtures used by witnesses and counterexamples -/

/-- A summary entry with the given overall status and defaulted metadata. -/
def mkSummaryJob (st : String) : summaryJob :=
  { OverallStatus := st
    Alert := ""
    LastRun := 0
    LastUpdate := 0
    LatestGreenRun := ""
    LatestStatusIcon := ""
    LatestStatusDescription := "" }

/-- A fresh tab group for concrete runs. -/
def tInit : TabGroupStatus := initialTabGroup "g" "now"

/-- The four-job summary of the spec's partition example. -/
def jobsSample : List (String × summaryJob) :=
  [("A", mkSummaryJob "FLAKY"), ("B", mkSummaryJob "FAILING"),
   ("C", mkSummaryJob "PASSING"), ("D", mkSummaryJob "UNKNOWN")]

/-- A summary whose statuses are case variants of the three bucket words. -/
def caseVariantJobs : List (String × summaryJob) :=
  [("j1", mkSummaryJob "Flaky"), ("j2", mkSummaryJob "fLAKY"),
   ("j3", mkSummaryJob "Failing"), ("j4", mkSummaryJob "failing"),
   ("j5", mkSummaryJob "Passing"), ("j6", mkSummaryJob "passing"),
   ("j7", mkSummaryJob "PaSsInG")]

/-- A one-test table used by the enrichment and emission witnesses. -/
def sampleTable : testGridJobResult :=
  { TestGroupName := "tg"
    Tests := [{ Name := "[sig-network] pods should have IP"
                OriginalName := "orig"
                Messages := []
                ShortTexts := []
                Statuses := []
                Target := ""
                sig := "" }] }

/-- An empty test table. -/
def emptyTable : testGridJobResult :=
  { TestGroupName := "tg", Tests := [] }

/-- Fetch oracle that answers job `a`'s table URL in group `g` and fails
with a transport error for every other URL. -/
def fetchOnlyA : String → Except FetchError testGridJobResult :=
  fun u =>
    if u = jobTestTableUrl "g" "a" then Except.ok sampleTable
    else Except.error (FetchError.transport "connection refused")

/-- Fetch oracle that always fails with a parse error (a simulated 500
response body). -/
def failFetch : String → Except FetchError testGridJobResult :=
  fun _ => Except.error (FetchError.parse "invalid character")

/-- Tab group whose flaking and failed buckets hold jobs `a` then `b`. -/
def tTwoJobs : TabGroupStatus :=
  { Name := "g"
    CollectedAt := "now"
    Count := 2
    TabGroupSummaryUrl := tabGroupSummaryUrl "g"
    FlakingJobs := [("a", (mkSummaryJob "FLAKY").toJobStatus),
                    ("b", (mkSummaryJob "FLAKY").toJobStatus)]
    PassingJobs := []
    FailedJobs := [("a", (mkSummaryJob "FAILING").toJobStatus),
                   ("b", (mkSummaryJob "FAILING").toJobStatus)] }

/-- Snapshot whose single flaking job carries no attached test-result list
(the nil pointer left by skipped or failed enrichment). -/
def tNilResults : TabGroupStatus :=
  { Name := "g"
    CollectedAt := "now"
    Count := 1
    TabGroupSummaryUrl := tabGroupSummaryUrl "g"
    FlakingJobs := [("job-a", (mkSummaryJob "FLAKY").toJobStatus)]
    PassingJobs := []
    FailedJobs := [] }

/-- An enriched job record with the given status and attached table. -/
def mkEnrichedJob (st : String) (r : testGridJobResult) : jobStatus :=
  { (mkSummaryJob st).toJobStatus with
      jobTestResults := some r
      url := jobTestTableUrl "g" "j" }

/-- Fully enriched snapshot used by the emission witnesses: one flaking job
with one test, one failed job with an empty table, two passing jobs. -/
def tEnriched : TabGroupStatus :=
  { Name := "g"
    CollectedAt := "now"
    Count := 4
    TabGroupSummaryUrl := tabGroupSummaryUrl "g"
    FlakingJobs := [("f1", mkEnrichedJob "FLAKY" sampleTable)]
    PassingJobs := [("p1", (mkSummaryJob "PASSING").toJobStatus),
                    ("p2", (mkSummaryJob "PASSING").toJobStatus)]
    FailedJobs := [("x1", mkEnrichedJob "FAILING" emptyTable)] }


/-! ## Sig-tagging lemmas (claims about `tagSig`) -/

/-- A successful lazy-tail match is an initial segment of its input. -/
theorem sigTail_initial : ∀ (l t : List Char), sigTail l = some t → ∃ u, t ++ u = l := by
  intro l
  induction l with
  | nil => intro t h; simp [sigTail] at h
  | cons c rest ih =>
    intro t h
    by_cases hc : c = '\n'
    · simp [sigTail, hc] at h
    · by_cases hs : startsClose rest = true
      · simp [sigTail, hc, hs] at h
        match rest, hs with
        | c1 :: c2 :: x, hs =>
          simp [startsClose] at hs
          obtain ⟨h1, h2⟩ := hs
          exact ⟨x, by simp [← h, h1, h2]⟩
      · simp [sigTail, hc, hs, Option.map_eq_some'] at h
        obtain ⟨t', ht', rfl⟩ := h
        obtain ⟨u, hu⟩ := ih t' ht'
        exact ⟨u, by simp [hu]⟩

/-- A successful lazy-tail match has at least three characters. -/
theorem sigTail_three_le : ∀ (l t : List Char), sigTail l = some t → 3 ≤ t.length := by
  intro l
  induction l with
  | nil => intro t h; simp [sigTail] at h
  | cons c rest ih =>
    intro t h
    by_cases hc : c = '\n'
    · simp [sigTail, hc] at h
    · by_cases hs : startsClose rest = true
      · simp [sigTail, hc, hs] at h
        simp [← h]
      · simp [sigTail, hc, hs, Option.map_eq_some'] at h
        obtain ⟨t', ht', rfl⟩ := h
        have := ih t' ht'
        simp
        omega

/-- Predicate `startsClose` only looks at the first two characters. -/
theorem startsClose_initial (t u : List Char) (h2 : 2 ≤ t.length) :
    startsClose (t ++ u) = startsClose t := by
  match t, h2 with
  | c1 :: c2 :: x, _ => simp [startsClose]

/-- The lazy tail matcher is fixed on its own output. -/
theorem sigTail_fixed : ∀ (l t : List Char), sigTail l = some t → sigTail t = some t := by
  intro l
  induction l with
  | nil => intro t h; simp [sigTail] at h
  | cons c rest ih =>
    intro t h
    by_cases hc : c = '\n'
    · simp [sigTail, hc] at h
    · by_cases hs : startsClose rest = true
      · simp [sigTail, hc, hs] at h
        subst h
        simp [sigTail, hc, startsClose]
      · simp [sigTail, hc, hs, Option.map_eq_some'] at h
        obtain ⟨t', ht', rfl⟩ := h
        have hfix := ih t' ht'
        have h3 := sigTail_three_le rest t' ht'
        obtain ⟨u, hu⟩ := sigTail_initial rest t' ht'
        have hst := startsClose_initial t' u (by omega)
        rw [hu] at hst
        simp only [Bool.not_eq_true] at hs
        have hsc : startsClose t' = false := hst.symm.trans hs
        simp [sigTail, hc, hsc, hfix]

/-- Inversion for the anchored matcher. -/
theorem sigMatchHere_shape : ∀ (l m : List Char), sigMatchHere l = some m →
    ∃ rest t, l = '[' :: 's' :: 'i' :: 'g' :: '-' :: rest ∧ sigTail rest = some t ∧
      m = '[' :: 's' :: 'i' :: 'g' :: '-' :: t := by
  intro l m h
  match l with
  | [] => simp [sigMatchHere] at h
  | [a] => simp [sigMatchHere] at h
  | [a, b] => simp [sigMatchHere] at h
  | [a, b, c] => simp [sigMatchHere] at h
  | [a, b, c, d] => simp [sigMatchHere] at h
  | a :: b :: c :: d :: e :: rest =>
    simp only [sigMatchHere] at h
    by_cases hcond : a = '[' ∧ b = 's' ∧ c = 'i' ∧ d = 'g' ∧ e = '-'
    · rw [if_pos hcond] at h
      obtain ⟨rfl, rfl, rfl, rfl, rfl⟩ := hcond
      rw [Option.map_eq_some'] at h
      obtain ⟨t, ht, hm⟩ := h
      exact ⟨rest, t, rfl, ht, hm.symm⟩
    · rw [if_neg hcond] at h
      exact absurd h (by simp)

/-- A match found anywhere starts with `[sig-` and its lazy tail re-matches
itself. -/
theorem sigFind_shape : ∀ (l m : List Char), sigFind l = some m →
    ∃ t, sigTail t = some t ∧ m = '[' :: 's' :: 'i' :: 'g' :: '-' :: t := by
  intro l
  induction l with
  | nil => intro m h; simp [sigFind] at h
  | cons c rest ih =>
    intro m h
    rw [sigFind] at h
    cases hm : sigMatchHere (c :: rest) with
    | some m' =>
      rw [hm] at h
      simp at h
      subst h
      obtain ⟨r, t, _, ht, hmm⟩ := sigMatchHere_shape _ _ hm
      exact ⟨t, sigTail_fixed r t ht, hmm⟩
    | none =>
      rw [hm] at h
      exact ih m h

/-- The leftmost search re-finds its own output in full. -/
theorem sigFind_self : ∀ (l m : List Char), sigFind l = some m → sigFind m = some m := by
  intro l m h
  obtain ⟨t, hfix, rfl⟩ := sigFind_shape l m h
  have hmh : sigMatchHere ('[' :: 's' :: 'i' :: 'g' :: '-' :: t)
      = some ('[' :: 's' :: 'i' :: 'g' :: '-' :: t) := by
    simp [sigMatchHere, hfix]
  rw [sigFind, hmh]

/-- C7: sig tagging labels `"[sig-network] pods should have IP"` with the
matched marker `"[sig-network] "` (brackets and trailing space included),
labels the marker-free `"generic failure"` with the sentinel `"job-owner"`,
and produces a non-empty label for every test name. -/
theorem sig_tagging_spec :
    tagSig "[sig-network] pods should have IP" = "[sig-network] "
    ∧ tagSig "generic failure" = "job-owner"
    ∧ ∀ s : String, tagSig s ≠ "" := by
  refine ⟨by decide, by decide, ?_⟩
  intro s
  simp only [tagSig, sigFindString]
  cases hf : sigFind s.data with
  | none => simp
  | some m =>
    obtain ⟨t, _, rfl⟩ := sigFind_shape _ _ hf
    have hne : String.mk ('[' :: 's' :: 'i' :: 'g' :: '-' :: t) ≠ "" := by
      intro hcon
      have := congrArg String.data hcon
      simp at this
    simp [hne]

/-- C7 witness: the non-emptiness clause evaluated at a concrete
marker-free name. -/
theorem sig_tagging_spec_witness : tagSig "generic failure" ≠ "" :=
  sig_tagging_spec.2.2 "generic failure"

/-- C8: re-applying the tagging function to a label it produced returns the
same label. -/
theorem sig_tagging_idempotent (s : String) : tagSig (tagSig s) = tagSig s := by
  have hjob : tagSig "job-owner" = "job-owner" := by decide
  cases hf : sigFind s.data with
  | none =>
    have hs : tagSig s = "job-owner" := by
      simp only [tagSig, sigFindString]
      rw [hf]
      simp
    rw [hs, hjob]
  | some m =>
    obtain ⟨t, hfix, rfl⟩ := sigFind_shape _ _ hf
    have hne : String.mk ('[' :: 's' :: 'i' :: 'g' :: '-' :: t) ≠ "" := by
      intro hcon
      have := congrArg String.data hcon
      simp at this
    have hs : tagSig s = String.mk ('[' :: 's' :: 'i' :: 'g' :: '-' :: t) := by
      simp only [tagSig, sigFindString]
      rw [hf]
      simp [hne]
    rw [hs]
    have hfm : sigFind (String.mk ('[' :: 's' :: 'i' :: 'g' :: '-' :: t)).data
        = some ('[' :: 's' :: 'i' :: 'g' :: '-' :: t) :=
      sigFind_self _ _ hf
    simp only [tagSig, sigFindString]
    rw [hfm]
    simp [hne]

/-! ## Status classification (claims about `CollectStatus`) -/

/-- The three status filters are mutually exclusive, so their lengths sum to
at most the number of jobs. -/
theorem filter_three_length_le (l : List (String × jobStatus)) :
    (l.filter (fun p => p.2.OverallStatus == "FLAKY")).length
    + (l.filter (fun p => p.2.OverallStatus == "FAILING")).length
    + (l.filter (fun p => p.2.OverallStatus == "PASSING")).length ≤ l.length := by
  induction l with
  | nil => simp
  | cons a l ih =>
    by_cases h1 : a.2.OverallStatus = "FLAKY"
    · simp [List.filter_cons, h1]
      omega
    · by_cases h2 : a.2.OverallStatus = "FAILING"
      · simp [List.filter_cons, h1, h2]
        omega
      · by_cases h3 : a.2.OverallStatus = "PASSING"
        · simp [List.filter_cons, h1, h2, h3]
          omega
        · simp [List.filter_cons, h1, h2, h3]
          omega

/-- C1: on a successful summary fetch, a job lands in the flaking / failed /
passing bucket exactly when its overall status is the exact string `"FLAKY"`
/ `"FAILING"` / `"PASSING"`, no job is in two buckets, `Count` is the total
number of jobs unmarshalled (excluded statuses included), and the three
bucket sizes sum to at most `Count`. -/
theorem collectStatus_partition (t : TabGroupStatus)
    (sjobs : List (String × summaryJob)) (name : String) (sj : summaryJob)
    (h : (name, sj) ∈ sjobs) :
    ((name, sj.toJobStatus) ∈ (CollectStatus t (Except.ok sjobs)).1.FlakingJobs
      ↔ sj.OverallStatus = "FLAKY")
    ∧ ((name, sj.toJobStatus) ∈ (CollectStatus t (Except.ok sjobs)).1.FailedJobs
      ↔ sj.OverallStatus = "FAILING")
    ∧ ((name, sj.toJobStatus) ∈ (CollectStatus t (Except.ok sjobs)).1.PassingJobs
      ↔ sj.OverallStatus = "PASSING")
    ∧ (∀ q ∈ (CollectStatus t (Except.ok sjobs)).1.FlakingJobs,
        q ∉ (CollectStatus t (Except.ok sjobs)).1.FailedJobs
        ∧ q ∉ (CollectStatus t (Except.ok sjobs)).1.PassingJobs)
    ∧ (∀ q ∈ (CollectStatus t (Except.ok sjobs)).1.FailedJobs,
        q ∉ (CollectStatus t (Except.ok sjobs)).1.PassingJobs)
    ∧ (CollectStatus t (Except.ok sjobs)).1.Count = sjobs.length
    ∧ (CollectStatus t (Except.ok sjobs)).1.FlakingJobs.length
      + (CollectStatus t (Except.ok sjobs)).1.FailedJobs.length
      + (CollectStatus t (Except.ok sjobs)).1.PassingJobs.length
      ≤ (CollectStatus t (Except.ok sjobs)).1.Count := by
  simp only [CollectStatus]
  refine ⟨?_, ?_, ?_, ?_, ?_, ?_, ?_⟩
  · constructor
    · intro hq
      have := (List.mem_filter.mp hq).2
      simpa using this
    · intro hst
      refine List.mem_filter.mpr ⟨List.mem_map_of_mem _ h, ?_⟩
      simpa using hst
  · constructor
    · intro hq
      have := (List.mem_filter.mp hq).2
      simpa using this
    · intro hst
      refine List.mem_filter.mpr ⟨List.mem_map_of_mem _ h, ?_⟩
      simpa using hst
  · constructor
    · intro hq
      have := (List.mem_filter.mp hq).2
      simpa using this
    · intro hst
      refine List.mem_filter.mpr ⟨List.mem_map_of_mem _ h, ?_⟩
      simpa using hst
  · intro q hq
    have h1 := (List.mem_filter.mp hq).2
    simp at h1
    constructor
    · intro hq2
      have h2 := (List.mem_filter.mp hq2).2
      simp at h2
      rw [h1] at h2
      exact absurd h2 (by decide)
    · intro hq2
      have h2 := (List.mem_filter.mp hq2).2
      simp at h2
      rw [h1] at h2
      exact absurd h2 (by decide)
  · intro q hq
    have h1 := (List.mem_filter.mp hq).2
    simp at h1
    intro hq2
    have h2 := (List.mem_filter.mp hq2).2
    simp at h2
    rw [h1] at h2
    exact absurd h2 (by decide)
  · simp
  · simpa using filter_three_length_le (sjobs.map (fun p => (p.1, p.2.toJobStatus)))

/-- C1 witness: the spec's four-job example, evaluated for the excluded
`"UNKNOWN"` job. -/
theorem collectStatus_partition_witness :
    (("D", (mkSummaryJob "UNKNOWN").toJobStatus)
        ∈ (CollectStatus tInit (Except.ok jobsSample)).1.FlakingJobs
      ↔ (mkSummaryJob "UNKNOWN").OverallStatus = "FLAKY")
    ∧ (CollectStatus tInit (Except.ok jobsSample)).1.Count = jobsSample.length
    ∧ (CollectStatus tInit (Except.ok jobsSample)).1.FlakingJobs.length
      + (CollectStatus tInit (Except.ok jobsSample)).1.FailedJobs.length
      + (CollectStatus tInit (Except.ok jobsSample)).1.PassingJobs.length
      ≤ (CollectStatus tInit (Except.ok jobsSample)).1.Count := by
  have h := collectStatus_partition tInit jobsSample "D" (mkSummaryJob "UNKNOWN") (by decide)
  exact ⟨h.1, h.2.2.2.2.2.1, h.2.2.2.2.2.2⟩

/-- C2 counterexample: case variants of all three bucket words — including
every variant of `"PASSING"` — are excluded from every bucket, so no bucket
matches case-insensitively. -/
theorem status_caseVariants_excluded :
    (CollectStatus tInit (Except.ok caseVariantJobs)).1.FlakingJobs = []
    ∧ (CollectStatus tInit (Except.ok caseVariantJobs)).1.FailedJobs = []
    ∧ (CollectStatus tInit (Except.ok caseVariantJobs)).1.PassingJobs = []
    ∧ (CollectStatus tInit (Except.ok caseVariantJobs)).1.Count = 7 := by decide

/-- C2 amended: status matching is exact-case for all three buckets — every
job placed in a bucket carries exactly the canonical status string, so any
case variant is excluded from all three. -/
theorem status_match_exact (t : TabGroupStatus) (sjobs : List (String × summaryJob))
    (q : String × jobStatus) :
    (q ∈ (CollectStatus t (Except.ok sjobs)).1.FlakingJobs → q.2.OverallStatus = "FLAKY")
    ∧ (q ∈ (CollectStatus t (Except.ok sjobs)).1.FailedJobs → q.2.OverallStatus = "FAILING")
    ∧ (q ∈ (CollectStatus t (Except.ok sjobs)).1.PassingJobs → q.2.OverallStatus = "PASSING") := by
  simp only [CollectStatus]
  refine ⟨?_, ?_, ?_⟩ <;> intro hq <;>
    · have := (List.mem_filter.mp hq).2
      simpa using this

/-- C2 amended witness: the exactly-spelled `"PASSING"` job of the sample is
in the passing bucket and the theorem recovers its status string. -/
theorem status_match_exact_witness :
    ("C", (mkSummaryJob "PASSING").toJobStatus).2.OverallStatus = "PASSING" :=
  (status_match_exact tInit jobsSample ("C", (mkSummaryJob "PASSING").toJobStatus)).2.2
    (by decide)

/-! ## Enrichment (claims about `CollectFlakyTests` / `CollectFailedTests`) -/

/-- Fail-fast behavior of the shared enrichment loop: the keys before the
failing one are processed, the failing fetch's error is returned at once,
and the map is exactly the state after the preceding keys — the result does
not depend on the keys after the failure. -/
theorem collectTestsLoop_failFast (g : String)
    (fetch : String → Except FetchError testGridJobResult) (e : FetchError) :
    ∀ (pre : List String) (name : String) (post : List String)
      (m : List (String × jobStatus)),
      (∀ k ∈ pre, ∃ r, fetch (jobTestTableUrl g k) = Except.ok r) →
      fetch (jobTestTableUrl g name) = Except.error e →
      collectTestsLoop g fetch (pre ++ name :: post) m
        = ((collectTestsLoop g fetch pre m).1, Except.error e) := by
  intro pre
  induction pre with
  | nil =>
    intro name post m _ hname
    simp [collectTestsLoop, hname]
  | cons k pre ih =>
    intro name post m hpre hname
    obtain ⟨r, hr⟩ := hpre k (by simp)
    simp only [List.cons_append, collectTestsLoop, hr]
    exact ih name post _ (fun k2 hk2 => hpre k2 (by simp [hk2])) hname

/-- C5: during per-job enrichment of either bucket, the first failing fetch
makes the whole pass return that error immediately: the bucket ends in the
state reached after the jobs before the failure, so no later job is fetched
or mutated and no partial-result continuation occurs. -/
theorem enrichment_failFast (t : TabGroupStatus)
    (fetch : String → Except FetchError testGridJobResult)
    (preF postF : List String) (nameF : String) (eF : FetchError)
    (preA postA : List String) (nameA : String) (eA : FetchError)
    (hFok : ∀ k ∈ preF, ∃ r, fetch (jobTestTableUrl t.Name k) = Except.ok r)
    (hFerr : fetch (jobTestTableUrl t.Name nameF) = Except.error eF)
    (hFkeys : t.FlakingJobs.map Prod.fst = preF ++ nameF :: postF)
    (hAok : ∀ k ∈ preA, ∃ r, fetch (jobTestTableUrl t.Name k) = Except.ok r)
    (hAerr : fetch (jobTestTableUrl t.Name nameA) = Except.error eA)
    (hAkeys : t.FailedJobs.map Prod.fst = preA ++ nameA :: postA) :
    CollectFlakyTests t fetch
      = ({ t with
            FlakingJobs := (collectTestsLoop t.Name fetch preF t.FlakingJobs).1 },
         Except.error eF)
    ∧ CollectFailedTests t fetch
      = ({ t with
            FailedJobs := (collectTestsLoop t.Name fetch preA t.FailedJobs).1 },
         Except.error eA) := by
  have hF := collectTestsLoop_failFast t.Name fetch eF preF nameF postF
    t.FlakingJobs hFok hFerr
  have hA := collectTestsLoop_failFast t.Name fetch eA preA nameA postA
    t.FailedJobs hAok hAerr
  constructor
  · simp only [CollectFlakyTests, hFkeys, hF]
  · simp only [CollectFailedTests, hAkeys, hA]

/-- C5 witness: two jobs in each bucket; job `a` fetches fine, job `b` hits a
transport error, and both passes stop right there. -/
theorem enrichment_failFast_witness :
    CollectFlakyTests tTwoJobs fetchOnlyA
      = ({ tTwoJobs with
            FlakingJobs :=
              (collectTestsLoop tTwoJobs.Name fetchOnlyA ["a"] tTwoJobs.FlakingJobs).1 },
         Except.error (FetchError.transport "connection refused"))
    ∧ CollectFailedTests tTwoJobs fetchOnlyA
      = ({ tTwoJobs with
            FailedJobs :=
              (collectTestsLoop tTwoJobs.Name fetchOnlyA ["a"] tTwoJobs.FailedJobs).1 },
         Except.error (FetchError.transport "connection refused")) := by
  refine enrichment_failFast tTwoJobs fetchOnlyA ["a"] [] "b" _ ["a"] [] "b" _
    ?_ ?_ ?_ ?_ ?_ ?_
  · intro k hk
    simp at hk
    subst hk
    exact ⟨sampleTable, rfl⟩
  · rfl
  · rfl
  · intro k hk
    simp at hk
    subst hk
    exact ⟨sampleTable, rfl⟩
  · rfl
  · rfl

/-- Relation `entryFrame` is reflexive. -/
theorem entryFrame_refl (p : String × jobStatus) : entryFrame p p := by
  simp [entryFrame, coreUnchanged]

/-- Relation `entryFrame` is transitive. -/
theorem entryFrame_trans {p q r : String × jobStatus}
    (h1 : entryFrame p q) (h2 : entryFrame q r) : entryFrame p r := by
  obtain ⟨hk1, c1⟩ := h1
  obtain ⟨hk2, c2⟩ := h2
  obtain ⟨a1, a2, a3, a4, a5, a6, a7⟩ := c1
  obtain ⟨b1, b2, b3, b4, b5, b6, b7⟩ := c2
  exact ⟨hk1.trans hk2,
    a1.trans b1, a2.trans b2, a3.trans b3, a4.trans b4,
    a5.trans b5, a6.trans b6, a7.trans b7⟩

/-- A list is entry-wise frame-related to itself. -/
theorem forall2_entryFrame_refl (m : List (String × jobStatus)) :
    List.Forall₂ entryFrame m m := by
  induction m with
  | nil => exact List.Forall₂.nil
  | cons p m ih => exact List.Forall₂.cons (entryFrame_refl p) ih

/-- Entry-wise frame relations compose. -/
theorem forall2_entryFrame_trans :
    ∀ {a b c : List (String × jobStatus)},
      List.Forall₂ entryFrame a b → List.Forall₂ entryFrame b c →
      List.Forall₂ entryFrame a c := by
  intro a b c h1
  induction h1 generalizing c with
  | nil =>
    intro h2
    cases h2
    exact List.Forall₂.nil
  | cons hpq h ih =>
    intro h2
    cases h2 with
    | cons hqr h' => exact List.Forall₂.cons (entryFrame_trans hpq hqr) (ih h')

/-- Attaching results to one slot keeps every key and every summary-derived
field. -/
theorem attachResults_frame (m : List (String × jobStatus)) (k : String)
    (r : testGridJobResult) (u : String) :
    List.Forall₂ entryFrame m (attachResults m k r u) := by
  induction m with
  | nil => exact List.Forall₂.nil
  | cons p m ih =>
    refine List.Forall₂.cons ?_ ih
    by_cases hk : p.1 = k
    · simp [attachResults, hk, entryFrame, coreUnchanged]
    · simp only [attachResults]
      rw [if_neg (by simpa using hk)]
      exact entryFrame_refl p

/-- The enrichment loop keeps every key and every summary-derived field of
the bucket it works on, whether it completes or fails. -/
theorem collectTestsLoop_frame (g : String)
    (fetch : String → Except FetchError testGridJobResult) :
    ∀ (keys : List String) (m : List (String × jobStatus)),
      List.Forall₂ entryFrame m (collectTestsLoop g fetch keys m).1 := by
  intro keys
  induction keys with
  | nil =>
    intro m
    simp only [collectTestsLoop]
    exact forall2_entryFrame_refl m
  | cons k keys ih =>
    intro m
    cases hf : fetch (jobTestTableUrl g k) with
    | error e =>
      simp only [collectTestsLoop, hf]
      exact forall2_entryFrame_refl m
    | ok results =>
      simp only [collectTestsLoop, hf]
      exact forall2_entryFrame_trans
        (attachResults_frame m k (addSigToTestResults results) (jobTestTableUrl g k))
        (ih _)

/-- Keys are preserved along an entry-wise frame relation. -/
theorem forall2_entryFrame_keys :
    ∀ {a b : List (String × jobStatus)}, List.Forall₂ entryFrame a b →
      a.map Prod.fst = b.map Prod.fst := by
  intro a b h
  induction h with
  | nil => rfl
  | cons hpq h ih => simp [ih, hpq.1]

/-- C10: per-job enrichment adds or removes no job of the bucket it works on
(same key list, in order) and changes only the `url` and `jobTestResults`
fields of each record: status, alert, timestamps, latest-green marker and
status description survive unchanged; the other two buckets are untouched. -/
theorem enrichment_frame (t : TabGroupStatus)
    (fetch : String → Except FetchError testGridJobResult) :
    List.Forall₂ entryFrame t.FlakingJobs (CollectFlakyTests t fetch).1.FlakingJobs
    ∧ (CollectFlakyTests t fetch).1.FlakingJobs.map Prod.fst
      = t.FlakingJobs.map Prod.fst
    ∧ (CollectFlakyTests t fetch).1.FailedJobs = t.FailedJobs
    ∧ (CollectFlakyTests t fetch).1.PassingJobs = t.PassingJobs
    ∧ List.Forall₂ entryFrame t.FailedJobs (CollectFailedTests t fetch).1.FailedJobs
    ∧ (CollectFailedTests t fetch).1.FailedJobs.map Prod.fst
      = t.FailedJobs.map Prod.fst
    ∧ (CollectFailedTests t fetch).1.FlakingJobs = t.FlakingJobs
    ∧ (CollectFailedTests t fetch).1.PassingJobs = t.PassingJobs := by
  have hF := collectTestsLoop_frame t.Name fetch (t.FlakingJobs.map Prod.fst) t.FlakingJobs
  have hA := collectTestsLoop_frame t.Name fetch (t.FailedJobs.map Prod.fst) t.FailedJobs
  exact ⟨hF, (forall2_entryFrame_keys hF).symm, rfl, rfl,
    hA, (forall2_entryFrame_keys hA).symm, rfl, rfl⟩

/-! ## Report emission (claims about `emitReport` / `runReport`) -/

/-- On a bucket whose every job has an attached table, the bucket emitter
completes without a panic and prints one row per attached test. -/
theorem emitEnriched_complete (c : String) :
    ∀ (l : List (String × jobStatus)),
      (∀ p ∈ l, p.2.jobTestResults.isSome = true) →
      (emitEnriched c l).2 = true
      ∧ (emitEnriched c l).1.length = bucketTestSum l := by
  intro l
  induction l with
  | nil => intro _; simp [emitEnriched, bucketTestSum]
  | cons p l ih =>
    intro h
    have hp := h p (by simp)
    obtain ⟨name, js⟩ := p
    cases hr : js.jobTestResults with
    | none => simp [hr] at hp
    | some r =>
      have ihl := ih (fun q hq => h q (by simp [hq]))
      refine ⟨?_, ?_⟩
      · simp only [emitEnriched, hr]
        exact ihl.1
      · simp only [emitEnriched, hr, List.length_append, List.length_map]
        rw [ihl.2]
        simp [bucketTestSum, testCount, hr]

/-- C3 counterexample: a snapshot whose flaking job carries no attached
test-result list makes report emission dereference a nil pointer — the run
aborts instead of yielding zero rows for that job. -/
theorem emit_nil_results_aborts : (emitReport tNilResults).2 = false := by decide

/-- C3 amended: report emission is pure and succeeds on every snapshot whose
flaking and failed jobs all carry an attached (possibly empty) test-result
list, and a job whose attached list is empty contributes zero rows; only a
job with no attached list at all (nil pointer) aborts emission. -/
theorem emit_total_on_enriched (t : TabGroupStatus)
    (hF : ∀ p ∈ t.FlakingJobs, p.2.jobTestResults.isSome = true)
    (hA : ∀ p ∈ t.FailedJobs, p.2.jobTestResults.isSome = true) :
    (emitReport t).2 = true
    ∧ ∀ (c jobName : String) (js : jobStatus) (rest : List (String × jobStatus))
        (r : testGridJobResult),
        js.jobTestResults = some r → r.Tests = [] →
        emitEnriched c ((jobName, js) :: rest) = emitEnriched c rest := by
  constructor
  · have hFc := emitEnriched_complete t.CollectedAt t.FlakingJobs hF
    have hAc := emitEnriched_complete t.CollectedAt t.FailedJobs hA
    simp [emitReport, hFc.1, hAc.1]
  · intro c jobName js rest r hr hnil
    simp [emitEnriched, hr, hnil]

/-- C3 amended witness: on the concrete enriched snapshot emission succeeds,
and its enriched-but-empty failed job contributes no row. -/
theorem emit_total_on_enriched_witness :
    (emitReport tEnriched).2 = true
    ∧ emitEnriched "now" [("x1", mkEnrichedJob "FAILING" emptyTable)]
      = emitEnriched "now" [] := by
  have h := emit_total_on_enriched tEnriched (by decide) (by decide)
  exact ⟨h.1, h.2 "now" "x1" (mkEnrichedJob "FAILING" emptyTable) [] emptyTable rfl rfl⟩

/-- C9: for a fully enriched snapshot, the emitted row count is the sum of
test-list lengths over flaking jobs, plus the sum over failed jobs, plus the
number of passing jobs — and the trailing rows are exactly the passing rows,
one per passing job with empty sig and test-name fields. -/
theorem report_row_count (t : TabGroupStatus)
    (hF : ∀ p ∈ t.FlakingJobs, p.2.jobTestResults.isSome = true)
    (hA : ∀ p ∈ t.FailedJobs, p.2.jobTestResults.isSome = true) :
    (emitReport t).1.length
      = bucketTestSum t.FlakingJobs + bucketTestSum t.FailedJobs
        + t.PassingJobs.length
    ∧ (emitReport t).1.drop
        (bucketTestSum t.FlakingJobs + bucketTestSum t.FailedJobs)
      = emitPassing t.CollectedAt t.PassingJobs := by
  have hFc := emitEnriched_complete t.CollectedAt t.FlakingJobs hF
  have hAc := emitEnriched_complete t.CollectedAt t.FailedJobs hA
  have hrows : (emitReport t).1
      = (emitEnriched t.CollectedAt t.FlakingJobs).1
        ++ ((emitEnriched t.CollectedAt t.FailedJobs).1
          ++ emitPassing t.CollectedAt t.PassingJobs) := by
    simp [emitReport, hFc.1, hAc.1]
  constructor
  · rw [hrows]
    simp [hFc.2, hAc.2, emitPassing]
    omega
  · rw [hrows, ← List.append_assoc]
    have hlen : ((emitEnriched t.CollectedAt t.FlakingJobs).1
        ++ (emitEnriched t.CollectedAt t.FailedJobs).1).length
        = bucketTestSum t.FlakingJobs + bucketTestSum t.FailedJobs := by
      simp [hFc.2, hAc.2]
    rw [← hlen]
    exact List.drop_left _ _

/-- C9 witness: the concrete enriched snapshot — one flaking test, an empty
failed table, two passing jobs — emits 1 + 0 + 2 rows, the last two being
the passing rows. -/
theorem report_row_count_witness :
    (emitReport tEnriched).1.length
      = bucketTestSum tEnriched.FlakingJobs + bucketTestSum tEnriched.FailedJobs
        + tEnriched.PassingJobs.length
    ∧ (emitReport tEnriched).1.drop
        (bucketTestSum tEnriched.FlakingJobs + bucketTestSum tEnriched.FailedJobs)
      = emitPassing tEnriched.CollectedAt tEnriched.PassingJobs :=
  report_row_count tEnriched (by decide) (by decide)

/-- C6: a full run (`CollectStatus`, then both enrichment passes, as
sequenced by `runReport`) never touches the passing bucket: it is exactly as
classification produced it, and none of its records has a test-result list
attached or a URL set. -/
theorem passing_bucket_frame (t : TabGroupStatus)
    (sjobs : List (String × summaryJob))
    (fetch : String → Except FetchError testGridJobResult) :
    (runReport t (Except.ok sjobs) fetch).1.PassingJobs
      = (CollectStatus t (Except.ok sjobs)).1.PassingJobs
    ∧ ∀ p ∈ (runReport t (Except.ok sjobs) fetch).1.PassingJobs,
        p.2.jobTestResults = none ∧ p.2.url = "" := by
  constructor
  · rfl
  · intro p hp
    have hp' : p ∈ (CollectStatus t (Except.ok sjobs)).1.PassingJobs := hp
    simp only [CollectStatus] at hp'
    have hmem := (List.mem_filter.mp hp').1
    simp only [List.mem_map] at hmem
    obtain ⟨q, _, rfl⟩ := hmem
    exact ⟨rfl, rfl⟩

/-- C6 witness: after a full run over the four-job sample (with enrichment
failing, the worst case for stray mutation), the passing record `C` is
untouched and unenriched. -/
theorem passing_bucket_frame_witness :
    (runReport tInit (Except.ok jobsSample) failFetch).1.PassingJobs
      = (CollectStatus tInit (Except.ok jobsSample)).1.PassingJobs
    ∧ ("C", (mkSummaryJob "PASSING").toJobStatus).2.jobTestResults = none
    ∧ ("C", (mkSummaryJob "PASSING").toJobStatus).2.url = "" := by
  have h := passing_bucket_frame tInit jobsSample failFetch
  exact ⟨h.1,
    (h.2 ("C", (mkSummaryJob "PASSING").toJobStatus) (by decide)).1,
    (h.2 ("C", (mkSummaryJob "PASSING").toJobStatus) (by decide)).2⟩

/-! ## Summary fetch failure (claims about `runReport` / `mainExitStatus`) -/

/-- C4 counterexample: with the summary fetch failing for the freshly
initialized blocking group, no rows are emitted — but the run completes with
no signalled error (`runReport` discards it), and with both groups failing
the process exit status is 0, not non-zero. -/
theorem summary_failure_exit_zero_counterexample :
    (runReport (initialTabGroup "sig-release-master-blocking" "now")
        (Except.error (FetchError.parse "invalid character")) failFetch).2
      = ([], true)
    ∧ mainExitStatus "now"
        (Except.error (FetchError.parse "invalid character"))
        (Except.error (FetchError.parse "invalid character"))
        failFetch failFetch = 0 := by decide

/-- C4 amended: when summary collection fails, `CollectStatus` returns the
error with the snapshot untouched, so a freshly initialized group emits no
report rows; but `runReport` discards the error and the process exits with
status 0. -/
theorem summary_failure_behavior (now : String) (e e2 : FetchError)
    (f f2 : String → Except FetchError testGridJobResult)
    (t : TabGroupStatus) :
    CollectStatus t (Except.error e) = (t, Except.error e)
    ∧ (runReport (initialTabGroup "sig-release-master-blocking" now)
        (Except.error e) f).2 = ([], true)
    ∧ mainExitStatus now (Except.error e) (Except.error e2) f f2 = 0 := by
  exact ⟨rfl, rfl, rfl⟩
